import Mathlib

/-!
Shallow embedding of the A2A agent-registry service (backend/app/main.py).

Modelling conventions:
* ISO-8601 timestamp strings are modelled as `Nat`; chronological order of
  the strings corresponds to `≤` on `Nat`.
* The durable JSON file is a `FileState`: `missing` (the file does not
  exist, `open` raises `FileNotFoundError`), `corrupt` (present but
  `json.load` raises), or `good agents` (a readable `{"agents": [...]}`
  document).
* A raised Python exception is `Except.error ()`.
* An I/O fault during a registry write (`_write`) is the boolean `ioF`
  parameter threaded through the liveness-loop model; `_write` is
  crash-atomic (tmp file + `os.replace`), so a failed write leaves the
  prior durable state intact.
-/

namespace A2A

inductive AgentStatus
  | active
  | inactive
  deriving DecidableEq, Repr

structure Agent where
  id : String
  name : String
  endpoint : String
  status : AgentStatus
  last_seen_at : Option Nat
  deriving DecidableEq, Repr

inductive Event
  | agentStatusChanged (agent : Agent)
  | chatMessage (sid sender message : String) (timestamp : Nat)
  deriving DecidableEq, Repr

inductive FileState
  | missing
  | corrupt
  | good (agents : List Agent)
  deriving DecidableEq, Repr

/-- `AgentStore._read_sync`: catches only `FileNotFoundError` (returning
`{"agents": []}`); a JSON decode error on a corrupt file propagates. -/
def readSync : FileState → Except Unit (List Agent)
  | .missing => .ok []
  | .corrupt => .error ()
  | .good agents => .ok agents

/-- `AgentStore.list_agents`: read under the lock and parse each record. -/
def list_agents (s : FileState) : Except Unit (List Agent) :=
  readSync s

/-- The for-loop of `AgentStore.set_status` / `upsert_agent` locating the
first stored record with the given id. -/
def findAgent : List Agent → String → Option Agent
  | [], _ => none
  | a :: rest, i => if a.id = i then some a else findAgent rest i

/-- The in-memory part of `AgentStore.upsert_agent`: replace the first
record with a matching id, else append the new record at the end. -/
def upsertList : List Agent → Agent → List Agent
  | [], agent => [agent]
  | a :: rest, agent =>
    if a.id = agent.id then agent :: rest
    else a :: upsertList rest agent

/-- `AgentStore.upsert_agent`: read, replace-or-append, write. -/
def upsert_agent (s : FileState) (agent : Agent) : Except Unit FileState :=
  match readSync s with
  | .error e => .error e
  | .ok agents => .ok (.good (upsertList agents agent))

/-- The in-memory part of `AgentStore.set_status`: find the first record
with the given id; absent id or an unchanged status yields `none` (and no
write); otherwise the record's status and last_seen_at are overwritten and
the updated record is returned. -/
def setStatusList : List Agent → String → AgentStatus → Option Nat →
    Option (List Agent × Agent)
  | [], _, _, _ => none
  | a :: rest, i, st, ts =>
    if a.id = i then
      if a.status = st then none
      else
        let a' : Agent := { a with status := st, last_seen_at := ts }
        some (a' :: rest, a')
    else
      match setStatusList rest i st ts with
      | none => none
      | some (rest', u) => some (a :: rest', u)

/-- `AgentStore.set_status`, with `ioF` modelling whether `_write` raises
during this call.  A no-op (absent id or unchanged status) performs no
write; a failed write leaves the prior durable state intact
(crash-atomicity of tmp-file + `os.replace`). -/
def set_statusE (ioF : Bool) (s : FileState) (i : String) (st : AgentStatus)
    (ts : Option Nat) : Except Unit (FileState × Option Agent) :=
  match readSync s with
  | .error e => .error e
  | .ok agents =>
    match setStatusList agents i st ts with
    | none => .ok (s, none)
    | some (agents', u) =>
      if ioF then .error () else .ok (.good agents', some u)

/-- `AgentStore.set_status` with writes succeeding. -/
def set_status (s : FileState) (i : String) (st : AgentStatus)
    (ts : Option Nat) : Except Unit (FileState × Option Agent) :=
  set_statusE false s i st ts

/-- `POST /agent` (`register_agent`): build a fresh record with status
INACTIVE and no last_seen_at, upsert it, then broadcast an
`agent_status_changed` event carrying it.  Returns the new store state,
the response body, and the events handed to the hub. -/
def register_agent (s : FileState) (i n e : String) :
    Except Unit (FileState × Agent × List Event) :=
  let agent : Agent :=
    { id := i, name := n, endpoint := e, status := .inactive, last_seen_at := none }
  match upsert_agent s agent with
  | .error er => .error er
  | .ok s' => .ok (s', agent, [Event.agentStatusChanged agent])

/-! The liveness loop (`ping_loop`). -/

/-- Outcome of the GET probe to `endpoint + "/ping"`: HTTP 200 (classified
at current time `now`), another response code, or a raised exception
(network error / timeout). -/
inductive ProbeOutcome
  | ok200 (now : Nat)
  | okOther
  | exn
  deriving DecidableEq, Repr

/-- The classification step of the loop body: HTTP 200 yields the signal
(ACTIVE, current time); any other outcome yields (INACTIVE, the snapshot's
`last_seen_at`). -/
def probeSignal (a : Agent) : ProbeOutcome → AgentStatus × Option Nat
  | .ok200 now => (.active, some now)
  | .okOther => (.inactive, a.last_seen_at)
  | .exn => (.inactive, a.last_seen_at)

/-- The `if updated is not None: broadcast(...)` step of the loop body. -/
def emitIfFlipped : FileState × Option Agent → FileState × List Event
  | (s, some u) => (s, [Event.agentStatusChanged u])
  | (s, none) => (s, [])

/-- The per-agent `try/except` body of `ping_loop`: a 200 response stores
ACTIVE with the current time; a non-200 response stores INACTIVE with the
snapshot's `last_seen_at`; a raised exception (from the probe or from a
failing `set_status` write) lands in the `except` handler, which calls
`set_status(id, INACTIVE, agent.last_seen_at)`; an exception raised by
that handler itself escapes the per-agent `try`. -/
def handle_agent (ioF : Bool) (s : FileState) (a : Agent) (pr : ProbeOutcome) :
    Except Unit (FileState × List Event) :=
  match pr with
  | .ok200 now =>
    match set_statusE ioF s a.id .active (some now) with
    | .ok r => .ok (emitIfFlipped r)
    | .error _ =>
      match set_statusE ioF s a.id .inactive a.last_seen_at with
      | .ok r => .ok (emitIfFlipped r)
      | .error e => .error e
  | .okOther =>
    match set_statusE ioF s a.id .inactive a.last_seen_at with
    | .ok r => .ok (emitIfFlipped r)
    | .error _ =>
      match set_statusE ioF s a.id .inactive a.last_seen_at with
      | .ok r => .ok (emitIfFlipped r)
      | .error e => .error e
  | .exn =>
    match set_statusE ioF s a.id .inactive a.last_seen_at with
    | .ok r => .ok (emitIfFlipped r)
    | .error e => .error e

/-- The `for agent in agents` walk of one loop iteration: an exception
escaping a per-agent `try` aborts the walk (the outer `except` catches it
and the remaining agents of this iteration are skipped). -/
def ping_go (ioF : Agent → Bool) (prs : Agent → ProbeOutcome) :
    List Agent → FileState → FileState × List Event
  | [], s => (s, [])
  | a :: rest, s =>
    match handle_agent (ioF a) s a (prs a) with
    | .error _ => (s, [])
    | .ok (s', evs) =>
      let r := ping_go ioF prs rest s'
      (r.1, evs ++ r.2)

/-- Reference walk with no escaping exceptions: every agent of the
snapshot is handled, each per-agent failure folded into its own step. -/
def ping_go_total (prs : Agent → ProbeOutcome) :
    List Agent → FileState → FileState × List Event
  | [], s => (s, [])
  | a :: rest, s =>
    let step :=
      match handle_agent false s a (prs a) with
      | .ok r => r
      | .error _ => (s, [])
    let r := ping_go_total prs rest step.1
    (r.1, step.2 ++ r.2)

/-- One iteration of `ping_loop`: snapshot the agent list, walk it; the
outer `try/except Exception: pass` makes the iteration total. -/
def ping_iteration (ioF : Agent → Bool) (prs : Agent → ProbeOutcome)
    (s : FileState) : FileState × List Event :=
  match list_agents s with
  | .error _ => (s, [])
  | .ok agents => ping_go ioF prs agents s

/-- `ping_loop` run for a given number of iterations, with per-iteration
probe outcomes and write-fault schedules; each iteration ends with the
fixed `asyncio.sleep` and the loop continues unconditionally. -/
def ping_loop_run (ioF : Nat → Agent → Bool) (prs : Nat → Agent → ProbeOutcome) :
    Nat → FileState → FileState
  | 0, s => s
  | n + 1, s =>
    ping_loop_run (fun k => ioF (k + 1)) (fun k => prs (k + 1)) n
      (ping_iteration (ioF 0) (prs 0) s).1

/-! The notification hub (`ConnectionManager`). -/

/-- A WebSocket subscriber: `cid` is its runtime identity (`id(websocket)`),
`stateConnected` whether `client_state.value == 1`, `sendOk` whether
`send_json` succeeds for the broadcast under study, and `inbox` the
messages it has received. -/
structure Conn where
  cid : Nat
  stateConnected : Bool
  sendOk : Bool
  inbox : List Event
  deriving DecidableEq, Repr

structure ConnectionManager where
  active_connections : List Conn
  deriving DecidableEq, Repr

/-- `ConnectionManager.disconnect`: remove the subscriber if present;
removing an absent subscriber is a no-op. -/
def disconnect (m : ConnectionManager) (w : Conn) : ConnectionManager :=
  if w ∈ m.active_connections then
    { active_connections := m.active_connections.erase w }
  else m

/-- One delivery attempt of `ConnectionManager.broadcast`: if the client
state reads CONNECTED, send, marking the subscriber stale on failure;
otherwise retry the send anyway inside a nested `try`, likewise marking it
stale on failure.  A successful send appends the event to the inbox. -/
def deliverOne (ev : Event) (c : Conn) : Conn × Bool :=
  if c.stateConnected then
    if c.sendOk then ({ c with inbox := c.inbox ++ [ev] }, false)
    else (c, true)
  else
    if c.sendOk then ({ c with inbox := c.inbox ++ [ev] }, false)
    else (c, true)

/-- `ConnectionManager.broadcast`: attempt delivery to every subscriber of
the snapshot, collect the stale ones, then remove each stale subscriber
via `disconnect`.  Every exception is caught, so the function is total:
broadcast never raises to its caller. -/
def broadcastRun (m : ConnectionManager) (ev : Event) : ConnectionManager :=
  let results := m.active_connections.map (deliverOne ev)
  let conns : List Conn := results.map Prod.fst
  let stale : List Conn := (results.filter (fun r => r.2)).map Prod.fst
  stale.foldl disconnect { active_connections := conns }

/-! The `GET /agents` handler. -/

/-- The chat text interpolated from the first filtered agent's id. -/
def greeting (agentId : String) : String :=
  "반갑습니다! " ++ agentId ++ " 입니다"

def statusOfQuery (q : String) : AgentStatus :=
  if q = "active" then .active else .inactive

/-- `GET /agents` (`list_agents` route): list the store; when the query
parameter is a valid status, filter, then broadcast a `chat_message`
naming the first filtered agent — `agents[0]` raises `IndexError` when the
filtered list is empty — and return the filtered list. -/
def list_agents_endpoint (s : FileState) (status : Option String) (now : Nat)
    (m : ConnectionManager) : Except Unit (List Agent × ConnectionManager) :=
  match list_agents s with
  | .error e => .error e
  | .ok agents =>
    match status with
    | none => .ok (agents, m)
    | some q =>
      if q = "active" ∨ q = "inactive" then
        let filtered := agents.filter (fun x => decide (x.status = statusOfQuery q))
        match filtered with
        | [] => .error ()
        | a0 :: rest =>
          let m' := broadcastRun m (.chatMessage "a12345" a0.id (greeting a0.id) now)
          .ok (a0 :: rest, m')
      else .ok (agents, m)

/-! Helper lemmas about the registry list operations. -/

theorem setStatusList_of_find_none (l : List Agent) (i : String) (st : AgentStatus)
    (ts : Option Nat) (h : findAgent l i = none) :
    setStatusList l i st ts = none := by
  induction l with
  | nil => rfl
  | cons a rest ih =>
    by_cases hid : a.id = i
    · simp [findAgent, hid] at h
    · simp only [findAgent, if_neg hid] at h
      simp [setStatusList, hid, ih h]

theorem setStatusList_of_same (l : List Agent) (i : String) (st : AgentStatus)
    (ts : Option Nat) (r : Agent) (hf : findAgent l i = some r)
    (hst : r.status = st) : setStatusList l i st ts = none := by
  induction l with
  | nil => simp [findAgent] at hf
  | cons a rest ih =>
    by_cases hid : a.id = i
    · simp only [findAgent, if_pos hid] at hf
      cases hf
      simp [setStatusList, hid, hst]
    · simp only [findAgent, if_neg hid] at hf
      simp [setStatusList, hid, ih hf]

theorem setStatusList_of_diff (l : List Agent) (i : String) (st : AgentStatus)
    (ts : Option Nat) (r : Agent) (hf : findAgent l i = some r)
    (hst : r.status ≠ st) :
    ∃ l', setStatusList l i st ts
            = some (l', { r with status := st, last_seen_at := ts })
      ∧ findAgent l' i = some { r with status := st, last_seen_at := ts }
      ∧ l'.map Agent.id = l.map Agent.id := by
  induction l with
  | nil => simp [findAgent] at hf
  | cons a rest ih =>
    by_cases hid : a.id = i
    · simp only [findAgent, if_pos hid] at hf
      cases hf
      refine ⟨{ r with status := st, last_seen_at := ts } :: rest, ?_, ?_, ?_⟩
      · simp [setStatusList, hid, hst]
      · simp [findAgent, hid]
      · simp
    · simp only [findAgent, if_neg hid] at hf
      obtain ⟨rest', h1, h2, h3⟩ := ih hf
      refine ⟨a :: rest', ?_, ?_, ?_⟩
      · simp [setStatusList, hid, h1]
      · simp [findAgent, hid, h2]
      · simp [h3]

theorem setStatusList_map_id (l : List Agent) (i : String) (st : AgentStatus)
    (ts : Option Nat) (l' : List Agent) (u : Agent)
    (h : setStatusList l i st ts = some (l', u)) :
    l'.map Agent.id = l.map Agent.id := by
  induction l generalizing l' u with
  | nil => simp [setStatusList] at h
  | cons a rest ih =>
    by_cases hid : a.id = i
    · by_cases hst : a.status = st
      · simp [setStatusList, hid, hst] at h
      · simp only [setStatusList, if_pos hid, if_neg hst, Option.some.injEq,
          Prod.mk.injEq] at h
        obtain ⟨h1, _⟩ := h
        subst h1
        simp
    · simp only [setStatusList, if_neg hid] at h
      cases hrec : setStatusList rest i st ts with
      | none => simp [hrec] at h
      | some p =>
        obtain ⟨rest', u'⟩ := p
        simp only [hrec, Option.some.injEq, Prod.mk.injEq] at h
        obtain ⟨h1, _⟩ := h
        subst h1
        simp [ih rest' u' hrec]

theorem upsertList_find_self (l : List Agent) (A : Agent) :
    findAgent (upsertList l A) A.id = some A := by
  induction l with
  | nil => simp [upsertList, findAgent]
  | cons a rest ih =>
    by_cases hid : a.id = A.id
    · simp [upsertList, hid, findAgent]
    · simp [upsertList, hid, findAgent, ih]

theorem upsertList_idem (l : List Agent) (A : Agent) :
    upsertList (upsertList l A) A = upsertList l A := by
  induction l with
  | nil => simp [upsertList]
  | cons a rest ih =>
    by_cases hid : a.id = A.id
    · simp [upsertList, hid]
    · simp [upsertList, hid, ih]

theorem mem_map_id_upsertList (l : List Agent) (A : Agent) (x : String)
    (h : x ∈ (upsertList l A).map Agent.id) :
    x ∈ l.map Agent.id ∨ x = A.id := by
  induction l with
  | nil => simpa [upsertList] using h
  | cons a rest ih =>
    by_cases hid : a.id = A.id
    · simp only [upsertList, if_pos hid, List.map_cons, List.mem_cons] at h ⊢
      rcases h with h | h
      · exact Or.inr h
      · exact Or.inl (Or.inr h)
    · simp only [upsertList, if_neg hid, List.map_cons, List.mem_cons] at h ⊢
      rcases h with h | h
      · exact Or.inl (Or.inl h)
      · rcases ih h with h' | h'
        · exact Or.inl (Or.inr h')
        · exact Or.inr h'

theorem upsertList_map_id_nodup (l : List Agent) (A : Agent)
    (h : (l.map Agent.id).Nodup) :
    ((upsertList l A).map Agent.id).Nodup := by
  induction l with
  | nil => simp [upsertList]
  | cons a rest ih =>
    simp only [List.map_cons, List.nodup_cons] at h
    obtain ⟨hna, hrest⟩ := h
    by_cases hid : a.id = A.id
    · simp only [upsertList, if_pos hid, List.map_cons, List.nodup_cons]
      exact ⟨hid ▸ hna, hrest⟩
    · simp only [upsertList, if_neg hid, List.map_cons, List.nodup_cons]
      refine ⟨?_, ih hrest⟩
      intro hmem
      rcases mem_map_id_upsertList rest A a.id hmem with h' | h'
      · exact hna h'
      · exact hid h'

theorem upsertList_filter_id (l : List Agent) (A : Agent)
    (h : (l.map Agent.id).Nodup) :
    (upsertList l A).filter (fun x => decide (x.id = A.id)) = [A] := by
  induction l with
  | nil => simp [upsertList]
  | cons a rest ih =>
    simp only [List.map_cons, List.nodup_cons] at h
    obtain ⟨hna, hrest⟩ := h
    by_cases hid : a.id = A.id
    · have hnil : rest.filter (fun x => decide (x.id = A.id)) = [] := by
        rw [List.filter_eq_nil_iff]
        intro x hx
        simp only [decide_eq_true_eq]
        intro hxA
        exact hna (hid ▸ hxA ▸ List.mem_map_of_mem Agent.id hx)
      simp [upsertList, hid, List.filter_cons, hnil]
    · simp only [upsertList, if_neg hid, List.filter_cons, decide_eq_true_eq,
        if_neg hid]
      exact ih hrest

/-- C1: `set_status(id, status, observedAt)` is a returning no-op (nothing
returned, state — `last_seen_at` included — untouched, no write) when the
id is absent or the stored status already equals `status` (whatever the
stored `last_seen_at`); otherwise it overwrites the record's status and
`last_seen_at` with the given values, persists, returns the updated
record, and the persisted state's `list()` / lookup shows the new status
and timestamp. -/
theorem set_status_dedup_contract (l : List Agent) (i : String)
    (st : AgentStatus) (ts : Option Nat) :
    (findAgent l i = none →
       set_status (FileState.good l) i st ts = .ok (FileState.good l, none))
  ∧ (∀ r, findAgent l i = some r → r.status = st →
       set_status (FileState.good l) i st ts = .ok (FileState.good l, none))
  ∧ (∀ r, findAgent l i = some r → r.status ≠ st →
       ∃ l', set_status (FileState.good l) i st ts
               = .ok (FileState.good l',
                      some { r with status := st, last_seen_at := ts })
         ∧ list_agents (FileState.good l') = .ok l'
         ∧ findAgent l' i = some { r with status := st, last_seen_at := ts }) := by
  refine ⟨?_, ?_, ?_⟩
  · intro h
    simp [set_status, set_statusE, readSync, setStatusList_of_find_none l i st ts h]
  · intro r hf hst
    simp [set_status, set_statusE, readSync, setStatusList_of_same l i st ts r hf hst]
  · intro r hf hst
    obtain ⟨l', h1, h2, _⟩ := setStatusList_of_diff l i st ts r hf hst
    exact ⟨l', by simp [set_status, set_statusE, readSync, h1], rfl, h2⟩

/-- Witness for C1 at a concrete registry: flipping the stored INACTIVE
record to ACTIVE at time 7 persists and returns the updated record. -/
theorem set_status_dedup_contract_witness :
    ∃ l', set_status (FileState.good
            [{ id := "a1", name := "w1", endpoint := "http://h:9001",
               status := AgentStatus.inactive, last_seen_at := none }])
            "a1" AgentStatus.active (some 7)
            = .ok (FileState.good l',
                   some { id := "a1", name := "w1", endpoint := "http://h:9001",
                          status := AgentStatus.active, last_seen_at := some 7 })
      ∧ list_agents (FileState.good l') = .ok l'
      ∧ findAgent l' "a1"
          = some { id := "a1", name := "w1", endpoint := "http://h:9001",
                   status := AgentStatus.active, last_seen_at := some 7 } :=
  (set_status_dedup_contract
      [{ id := "a1", name := "w1", endpoint := "http://h:9001",
         status := AgentStatus.inactive, last_seen_at := none }]
      "a1" AgentStatus.active (some 7)).2.2
    { id := "a1", name := "w1", endpoint := "http://h:9001",
      status := AgentStatus.inactive, last_seen_at := none }
    (by decide) (by decide)

/-- C8: `upsert` is idempotent — upserting the same record twice equals
upserting it once — and from a registry with unique ids the double upsert
leaves exactly one record carrying the latest submitted fields under that
id; both `upsert` and a successful `set_status` preserve id-uniqueness. -/
theorem upsert_idempotent_id_unique (l : List Agent) (A : Agent)
    (h : (l.map Agent.id).Nodup) :
    upsertList (upsertList l A) A = upsertList l A
  ∧ (upsertList (upsertList l A) A).filter (fun x => decide (x.id = A.id)) = [A]
  ∧ ((upsertList l A).map Agent.id).Nodup
  ∧ (∀ i st ts l' u, setStatusList l i st ts = some (l', u) →
       (l'.map Agent.id).Nodup) := by
  refine ⟨upsertList_idem l A, ?_, upsertList_map_id_nodup l A h, ?_⟩
  · rw [upsertList_idem l A]
    exact upsertList_filter_id l A h
  · intro i st ts l' u hs
    rw [setStatusList_map_id l i st ts l' u hs]
    exact h

/-- Witness for C8 at a concrete registry with two distinct agents. -/
theorem upsert_idempotent_id_unique_witness :
    ([{ id := "a1", name := "w1", endpoint := "e1",
        status := AgentStatus.inactive, last_seen_at := none },
      { id := "a2", name := "w2", endpoint := "e2",
        status := AgentStatus.active, last_seen_at := some 3 }].map Agent.id).Nodup
  ∧ (upsertList (upsertList
        [{ id := "a1", name := "w1", endpoint := "e1",
           status := AgentStatus.inactive, last_seen_at := none },
         { id := "a2", name := "w2", endpoint := "e2",
           status := AgentStatus.active, last_seen_at := some 3 }]
        { id := "a1", name := "w1b", endpoint := "e1b",
          status := AgentStatus.inactive, last_seen_at := none })
        { id := "a1", name := "w1b", endpoint := "e1b",
          status := AgentStatus.inactive, last_seen_at := none }).filter
      (fun x => decide (x.id = "a1"))
      = [{ id := "a1", name := "w1b", endpoint := "e1b",
           status := AgentStatus.inactive, last_seen_at := none }] :=
  ⟨by decide,
   (upsert_idempotent_id_unique
      [{ id := "a1", name := "w1", endpoint := "e1",
         status := AgentStatus.inactive, last_seen_at := none },
       { id := "a2", name := "w2", endpoint := "e2",
         status := AgentStatus.active, last_seen_at := some 3 }]
      { id := "a1", name := "w1b", endpoint := "e1b",
        status := AgentStatus.inactive, last_seen_at := none }
      (by decide)).2.1⟩

/-- C3 counterexample: re-registering the ACTIVE agent `a1` (stored
last_seen_at 5) through POST /agent leaves the store with status INACTIVE
and last_seen_at cleared — the stored status and last_seen_at are reset,
not preserved. -/
theorem reregister_resets_record_cex :
    register_agent (FileState.good
        [{ id := "a1", name := "w1", endpoint := "e1",
           status := AgentStatus.active, last_seen_at := some 5 }])
        "a1" "w2" "e2"
      = .ok (FileState.good
              [{ id := "a1", name := "w2", endpoint := "e2",
                 status := AgentStatus.inactive, last_seen_at := none }],
             { id := "a1", name := "w2", endpoint := "e2",
               status := AgentStatus.inactive, last_seen_at := none },
             [Event.agentStatusChanged
               { id := "a1", name := "w2", endpoint := "e2",
                 status := AgentStatus.inactive, last_seen_at := none }])
  ∧ AgentStatus.inactive ≠ AgentStatus.active
  ∧ (none : Option Nat) ≠ some 5 := by
  refine ⟨rfl, ?_, ?_⟩ <;> decide

/-- C3 amended: re-registering an existing id replaces the stored record
wholesale — name and endpoint take the newly submitted values, while the
stored status is reset to INACTIVE and last_seen_at cleared to none (the
registration path forces these on every registration, not only fresh
ones). -/
theorem reregister_replaces_whole_record (l : List Agent) (i n e : String)
    (r : Agent) (_hf : findAgent l i = some r) :
    ∃ l' evs,
      register_agent (FileState.good l) i n e
        = .ok (FileState.good l',
               { id := i, name := n, endpoint := e,
                 status := AgentStatus.inactive, last_seen_at := none }, evs)
      ∧ findAgent l' i
          = some { id := i, name := n, endpoint := e,
                   status := AgentStatus.inactive, last_seen_at := none } := by
  refine ⟨upsertList l
      { id := i, name := n, endpoint := e,
        status := AgentStatus.inactive, last_seen_at := none }, _, rfl, ?_⟩
  exact upsertList_find_self l
      { id := i, name := n, endpoint := e,
        status := AgentStatus.inactive, last_seen_at := none }

/-- Witness for the amended C3 at a concrete stored ACTIVE agent. -/
theorem reregister_replaces_whole_record_witness :
    ∃ l' evs,
      register_agent (FileState.good
          [{ id := "a1", name := "w1", endpoint := "e1",
             status := AgentStatus.active, last_seen_at := some 5 }])
          "a1" "w2" "e2"
        = .ok (FileState.good l',
               { id := "a1", name := "w2", endpoint := "e2",
                 status := AgentStatus.inactive, last_seen_at := none }, evs)
      ∧ findAgent l' "a1"
          = some { id := "a1", name := "w2", endpoint := "e2",
                   status := AgentStatus.inactive, last_seen_at := none } :=
  reregister_replaces_whole_record
    [{ id := "a1", name := "w1", endpoint := "e1",
       status := AgentStatus.active, last_seen_at := some 5 }]
    "a1" "w2" "e2"
    { id := "a1", name := "w1", endpoint := "e1",
      status := AgentStatus.active, last_seen_at := some 5 }
    (by decide)

/-- C9 counterexample: the registration handler itself hands the hub an
agent_status_changed broadcast — the event list of a RegisterAgent call is
not empty. -/
theorem register_agent_broadcasts_cex :
    register_agent (FileState.good []) "a1" "w1" "e1"
      = .ok (FileState.good
              [{ id := "a1", name := "w1", endpoint := "e1",
                 status := AgentStatus.inactive, last_seen_at := none }],
             { id := "a1", name := "w1", endpoint := "e1",
               status := AgentStatus.inactive, last_seen_at := none },
             [Event.agentStatusChanged
               { id := "a1", name := "w1", endpoint := "e1",
                 status := AgentStatus.inactive, last_seen_at := none }])
  ∧ ([Event.agentStatusChanged
        { id := "a1", name := "w1", endpoint := "e1",
          status := AgentStatus.inactive, last_seen_at := none }]
       : List Event) ≠ [] := by
  refine ⟨rfl, ?_⟩
  decide

/-- C9 amended: every RegisterAgent call goes through Registry.upsert and
additionally broadcasts exactly one agent_status_changed event, carrying
the freshly built INACTIVE record, directly to the hub. -/
theorem register_agent_emits_event (l : List Agent) (i n e : String) :
    register_agent (FileState.good l) i n e
      = .ok (FileState.good (upsertList l
               { id := i, name := n, endpoint := e,
                 status := AgentStatus.inactive, last_seen_at := none }),
             { id := i, name := n, endpoint := e,
               status := AgentStatus.inactive, last_seen_at := none },
             [Event.agentStatusChanged
               { id := i, name := n, endpoint := e,
                 status := AgentStatus.inactive, last_seen_at := none }]) := rfl

/-- C7 counterexample: list() on a present-but-corrupt durable file
propagates the JSON decode error to the caller rather than returning the
empty list. -/
theorem list_agents_corrupt_cex :
    list_agents FileState.corrupt = .error ()
  ∧ list_agents FileState.corrupt ≠ .ok [] := by
  refine ⟨rfl, ?_⟩
  intro h
  exact Except.noConfusion h

/-- C7 amended: a missing durable file reads as the empty registry and a
readable file as its records, but only FileNotFoundError is caught — a
corrupt (unparsable) file raises to the caller of list(). -/
theorem list_agents_read_behavior :
    list_agents FileState.missing = .ok ([] : List Agent)
  ∧ (∀ l : List Agent, list_agents (FileState.good l) = .ok l)
  ∧ list_agents FileState.corrupt = .error () :=
  ⟨rfl, fun _ => rfl, rfl⟩

/-! Characterisation of the per-agent loop body on a readable store with
succeeding writes. -/

theorem handle_agent_false_eq (l : List Agent) (a : Agent) (pr : ProbeOutcome) :
    handle_agent false (FileState.good l) a pr
      = match setStatusList l a.id (probeSignal a pr).1 (probeSignal a pr).2 with
        | none => .ok (FileState.good l, [])
        | some (l', u) => .ok (FileState.good l', [Event.agentStatusChanged u]) := by
  cases pr with
  | ok200 now =>
    cases hs : setStatusList l a.id AgentStatus.active (some now) with
    | none => simp [handle_agent, set_statusE, readSync, probeSignal, hs, emitIfFlipped]
    | some p =>
      obtain ⟨l', u⟩ := p
      simp [handle_agent, set_statusE, readSync, probeSignal, hs, emitIfFlipped]
  | okOther =>
    cases hs : setStatusList l a.id AgentStatus.inactive a.last_seen_at with
    | none => simp [handle_agent, set_statusE, readSync, probeSignal, hs, emitIfFlipped]
    | some p =>
      obtain ⟨l', u⟩ := p
      simp [handle_agent, set_statusE, readSync, probeSignal, hs, emitIfFlipped]
  | exn =>
    cases hs : setStatusList l a.id AgentStatus.inactive a.last_seen_at with
    | none => simp [handle_agent, set_statusE, readSync, probeSignal, hs, emitIfFlipped]
    | some p =>
      obtain ⟨l', u⟩ := p
      simp [handle_agent, set_statusE, readSync, probeSignal, hs, emitIfFlipped]

theorem handle_agent_false_good (l : List Agent) (a : Agent) (pr : ProbeOutcome) :
    ∃ l' evs, handle_agent false (FileState.good l) a pr
        = .ok (FileState.good l', evs) := by
  rw [handle_agent_false_eq]
  cases hs : setStatusList l a.id (probeSignal a pr).1 (probeSignal a pr).2 with
  | none => exact ⟨l, [], rfl⟩
  | some p =>
    obtain ⟨l', u⟩ := p
    exact ⟨l', [Event.agentStatusChanged u], rfl⟩

/-- Sample records used to instantiate the theorems below. -/
def sampleActive : Agent :=
  { id := "a1", name := "w1", endpoint := "http://h:9001",
    status := AgentStatus.active, last_seen_at := some 4 }

def sampleInactive : Agent :=
  { id := "a2", name := "w2", endpoint := "http://h:9002",
    status := AgentStatus.inactive, last_seen_at := none }

/-- C2: on a consistent snapshot, a failed probe (non-200 or exception)
signals INACTIVE with the agent's previously recorded `last_seen_at`, so
the stored `last_seen_at` is never cleared or advanced on a transition to
INACTIVE; an HTTP 200 probe either leaves the record untouched (already
ACTIVE, dedup) or stamps the supplied current time, so while ACTIVE the
stored `last_seen_at` is monotonically non-decreasing whenever the probe
clock is. -/
theorem probe_failure_keeps_last_seen (l : List Agent) (a r : Agent)
    (hf : findAgent l a.id = some r) (hsnap : a.last_seen_at = r.last_seen_at) :
    ∀ pr, ∃ l' evs r',
      handle_agent false (FileState.good l) a pr = .ok (FileState.good l', evs)
      ∧ findAgent l' a.id = some r'
      ∧ ((pr = ProbeOutcome.okOther ∨ pr = ProbeOutcome.exn) →
          r'.last_seen_at = r.last_seen_at ∧ r'.status = AgentStatus.inactive)
      ∧ (∀ now, pr = ProbeOutcome.ok200 now →
          r'.last_seen_at
            = if r.status = AgentStatus.active then r.last_seen_at else some now)
      ∧ (∀ now t t', pr = ProbeOutcome.ok200 now → r.last_seen_at = some t →
          t ≤ now → r'.last_seen_at = some t' → t ≤ t') := by
  intro pr
  cases pr with
  | ok200 now' =>
    by_cases hst : r.status = AgentStatus.active
    · have hs := setStatusList_of_same l a.id AgentStatus.active (some now') r hf hst
      refine ⟨l, [], r, ?_, hf, ?_, ?_, ?_⟩
      · rw [handle_agent_false_eq]
        simp [probeSignal, hs]
      · rintro (h | h) <;> exact ProbeOutcome.noConfusion h
      · intro now h
        rw [if_pos hst]
      · intro now t t' _ ht _ ht'
        rw [ht] at ht'
        cases ht'
        exact Nat.le_refl t
    · obtain ⟨l', h1, h2, _⟩ :=
        setStatusList_of_diff l a.id AgentStatus.active (some now') r hf hst
      refine ⟨l', [Event.agentStatusChanged
          { r with status := AgentStatus.active, last_seen_at := some now' }],
        { r with status := AgentStatus.active, last_seen_at := some now' },
        ?_, h2, ?_, ?_, ?_⟩
      · rw [handle_agent_false_eq]
        simp [probeSignal, h1]
      · rintro (h | h) <;> exact ProbeOutcome.noConfusion h
      · intro now h
        cases h
        rw [if_neg hst]
      · intro now t t' h ht hle ht'
        cases h
        simp only [Option.some.injEq] at ht'
        exact ht' ▸ hle
  | okOther =>
    by_cases hst : r.status = AgentStatus.inactive
    · have hs := setStatusList_of_same l a.id AgentStatus.inactive a.last_seen_at r hf hst
      refine ⟨l, [], r, ?_, hf, fun _ => ⟨rfl, hst⟩, ?_, ?_⟩
      · rw [handle_agent_false_eq]
        simp [probeSignal, hs]
      · intro now h
        exact ProbeOutcome.noConfusion h
      · intro now t t' h
        exact ProbeOutcome.noConfusion h
    · obtain ⟨l', h1, h2, _⟩ :=
        setStatusList_of_diff l a.id AgentStatus.inactive a.last_seen_at r hf hst
      refine ⟨l', [Event.agentStatusChanged
          { r with status := AgentStatus.inactive, last_seen_at := a.last_seen_at }],
        { r with status := AgentStatus.inactive, last_seen_at := a.last_seen_at },
        ?_, h2, fun _ => ⟨hsnap, rfl⟩, ?_, ?_⟩
      · rw [handle_agent_false_eq]
        simp [probeSignal, h1]
      · intro now h
        exact ProbeOutcome.noConfusion h
      · intro now t t' h
        exact ProbeOutcome.noConfusion h
  | exn =>
    by_cases hst : r.status = AgentStatus.inactive
    · have hs := setStatusList_of_same l a.id AgentStatus.inactive a.last_seen_at r hf hst
      refine ⟨l, [], r, ?_, hf, fun _ => ⟨rfl, hst⟩, ?_, ?_⟩
      · rw [handle_agent_false_eq]
        simp [probeSignal, hs]
      · intro now h
        exact ProbeOutcome.noConfusion h
      · intro now t t' h
        exact ProbeOutcome.noConfusion h
    · obtain ⟨l', h1, h2, _⟩ :=
        setStatusList_of_diff l a.id AgentStatus.inactive a.last_seen_at r hf hst
      refine ⟨l', [Event.agentStatusChanged
          { r with status := AgentStatus.inactive, last_seen_at := a.last_seen_at }],
        { r with status := AgentStatus.inactive, last_seen_at := a.last_seen_at },
        ?_, h2, fun _ => ⟨hsnap, rfl⟩, ?_, ?_⟩
      · rw [handle_agent_false_eq]
        simp [probeSignal, h1]
      · intro now h
        exact ProbeOutcome.noConfusion h
      · intro now t t' h
        exact ProbeOutcome.noConfusion h

/-- Witness for C2: a failed probe of the stored ACTIVE agent leaves its
last_seen_at at the prior value while flipping it to INACTIVE. -/
theorem probe_failure_keeps_last_seen_witness :
    ∃ l' evs r',
      handle_agent false (FileState.good [sampleActive]) sampleActive
          ProbeOutcome.okOther = .ok (FileState.good l', evs)
      ∧ findAgent l' sampleActive.id = some r'
      ∧ ((ProbeOutcome.okOther = ProbeOutcome.okOther
            ∨ ProbeOutcome.okOther = ProbeOutcome.exn) →
          r'.last_seen_at = sampleActive.last_seen_at
            ∧ r'.status = AgentStatus.inactive)
      ∧ (∀ now, ProbeOutcome.okOther = ProbeOutcome.ok200 now →
          r'.last_seen_at
            = if sampleActive.status = AgentStatus.active
              then sampleActive.last_seen_at else some now)
      ∧ (∀ now t t', ProbeOutcome.okOther = ProbeOutcome.ok200 now →
          sampleActive.last_seen_at = some t → t ≤ now →
          r'.last_seen_at = some t' → t ≤ t') :=
  probe_failure_keeps_last_seen [sampleActive] sampleActive sampleActive
    (by decide) rfl ProbeOutcome.okOther

/-- C4: the monitor hands the hub an agent_status_changed event exactly
when `set_status` returned an updated record (the status actually
flipped); a 200 probe of a previously INACTIVE agent yields exactly one
such event carrying status ACTIVE, and observing the same status again
yields no event and no store change. -/
theorem ping_event_iff_status_flip (l : List Agent) (a : Agent) :
    (∀ pr, handle_agent false (FileState.good l) a pr
        = match setStatusList l a.id (probeSignal a pr).1 (probeSignal a pr).2 with
          | none => .ok (FileState.good l, [])
          | some (l', u) => .ok (FileState.good l', [Event.agentStatusChanged u]))
  ∧ (∀ now r, findAgent l a.id = some r → r.status = AgentStatus.inactive →
      ∃ l', handle_agent false (FileState.good l) a (ProbeOutcome.ok200 now)
          = .ok (FileState.good l',
                 [Event.agentStatusChanged
                   { r with status := AgentStatus.active, last_seen_at := some now }]))
  ∧ (∀ pr r, findAgent l a.id = some r → r.status = (probeSignal a pr).1 →
      handle_agent false (FileState.good l) a pr = .ok (FileState.good l, [])) := by
  refine ⟨handle_agent_false_eq l a, ?_, ?_⟩
  · intro now r hf hst
    have hne : r.status ≠ AgentStatus.active := by
      rw [hst]
      decide
    obtain ⟨l', h1, _, _⟩ :=
      setStatusList_of_diff l a.id AgentStatus.active (some now) r hf hne
    refine ⟨l', ?_⟩
    rw [handle_agent_false_eq]
    simp [probeSignal, h1]
  · intro pr r hf hst
    have hs := setStatusList_of_same l a.id (probeSignal a pr).1 (probeSignal a pr).2
      r hf hst
    rw [handle_agent_false_eq, hs]

/-- Witness for C4: a 200 probe of the stored INACTIVE agent emits exactly
one agent_status_changed event with status ACTIVE. -/
theorem ping_event_iff_status_flip_witness :
    ∃ l', handle_agent false (FileState.good [sampleInactive]) sampleInactive
        (ProbeOutcome.ok200 9)
      = .ok (FileState.good l',
             [Event.agentStatusChanged
               { sampleInactive with
                 status := AgentStatus.active,
                 last_seen_at := some 9 }]) :=
  (ping_event_iff_status_flip [sampleInactive] sampleInactive).2.1 9
    sampleInactive (by decide) (by decide)

/-- C6 counterexample: agents `a1` (ACTIVE) and `a2` (INACTIVE) are
stored; `a1`'s probe raises and the fallback `set_status` write in the
`except` handler raises too, so the exception escapes the per-agent try
into the outer `except`: the iteration ends with no event and an
unchanged store, and `a2` — probed with HTTP 200 — is never updated in
that iteration, although handling `a2` alone would have flipped it to
ACTIVE with a broadcast. -/
theorem ping_iteration_io_fault_cex :
    ping_iteration (fun a => a.id == "a1")
        (fun a => if a.id = "a1" then ProbeOutcome.exn else ProbeOutcome.ok200 10)
        (FileState.good
          [{ id := "a1", name := "n1", endpoint := "e1",
             status := AgentStatus.active, last_seen_at := some 5 },
           { id := "a2", name := "n2", endpoint := "e2",
             status := AgentStatus.inactive, last_seen_at := none }])
      = (FileState.good
          [{ id := "a1", name := "n1", endpoint := "e1",
             status := AgentStatus.active, last_seen_at := some 5 },
           { id := "a2", name := "n2", endpoint := "e2",
             status := AgentStatus.inactive, last_seen_at := none }], [])
  ∧ (if ("a2" : String) = "a1" then ProbeOutcome.exn else ProbeOutcome.ok200 10)
      = ProbeOutcome.ok200 10
  ∧ handle_agent false
        (FileState.good
          [{ id := "a1", name := "n1", endpoint := "e1",
             status := AgentStatus.active, last_seen_at := some 5 },
           { id := "a2", name := "n2", endpoint := "e2",
             status := AgentStatus.inactive, last_seen_at := none }])
        { id := "a2", name := "n2", endpoint := "e2",
          status := AgentStatus.inactive, last_seen_at := none }
        (ProbeOutcome.ok200 10)
      = .ok (FileState.good
              [{ id := "a1", name := "n1", endpoint := "e1",
                 status := AgentStatus.active, last_seen_at := some 5 },
               { id := "a2", name := "n2", endpoint := "e2",
                 status := AgentStatus.active, last_seen_at := some 10 }],
             [Event.agentStatusChanged
               { id := "a2", name := "n2", endpoint := "e2",
                 status := AgentStatus.active, last_seen_at := some 10 }]) := by
  refine ⟨?_, by decide, ?_⟩ <;> rfl

/-- C6 amended: a probe exception is handled exactly like a failed probe —
an INACTIVE signal for that agent — and as long as registry writes
succeed, no agent's error can affect the others: the guarded walk of an
iteration processes the whole snapshot (it equals the total walk); the
loop body is total and unconditionally continues with the next iteration
after the fixed delay, so no caught error terminates the loop.  (Only a
registry write failure inside the error handler, as in the
counterexample, makes the remaining agents of that one iteration be
skipped; even then the loop proceeds.) -/
theorem ping_loop_error_containment :
    (∀ s a, handle_agent false s a ProbeOutcome.exn
        = handle_agent false s a ProbeOutcome.okOther)
  ∧ (∀ l a pr, ∃ l' evs,
        handle_agent false (FileState.good l) a pr = .ok (FileState.good l', evs))
  ∧ (∀ prs agents l,
        ping_go (fun _ => false) prs agents (FileState.good l)
          = ping_go_total prs agents (FileState.good l))
  ∧ (∀ ioF prs n s,
        ping_loop_run ioF prs (n + 1) s
          = ping_loop_run (fun k => ioF (k + 1)) (fun k => prs (k + 1)) n
              (ping_iteration (ioF 0) (prs 0) s).1) := by
  refine ⟨?_, handle_agent_false_good, ?_, fun _ _ _ _ => rfl⟩
  · intro s a
    cases hE : set_statusE false s a.id AgentStatus.inactive a.last_seen_at with
    | ok r => simp [handle_agent, hE]
    | error e => simp [handle_agent, hE]
  · intro prs agents
    induction agents with
    | nil => intro l; rfl
    | cons a rest ih =>
      intro l
      obtain ⟨l', evs, hh⟩ := handle_agent_false_good l a (prs a)
      simp only [ping_go, ping_go_total, hh, ih l']

/-! Helper lemmas for the hub. -/

theorem disconnect_active (m : ConnectionManager) (w : Conn) :
    (disconnect m w).active_connections = m.active_connections.erase w := by
  by_cases h : w ∈ m.active_connections
  · simp [disconnect, h]
  · simp [disconnect, h, List.erase_of_not_mem h]

theorem foldl_disconnect_active (xs : List Conn) (m : ConnectionManager) :
    (xs.foldl disconnect m).active_connections
      = xs.foldl (fun l w => l.erase w) m.active_connections := by
  induction xs generalizing m with
  | nil => rfl
  | cons x xs ih =>
    rw [List.foldl_cons, List.foldl_cons, ih, disconnect_active]

theorem foldl_erase_eq_filter {α : Type} [DecidableEq α] :
    ∀ (xs l : List α), l.Nodup →
      xs.foldl (fun acc x => acc.erase x) l = l.filter (fun a => decide (a ∉ xs))
  | [], l, _ => by simp
  | x :: xs, l, h => by
    rw [List.foldl_cons, foldl_erase_eq_filter xs (l.erase x) (List.Nodup.erase x h),
      List.Nodup.erase_eq_filter h x, List.filter_filter]
    refine List.filter_congr ?_
    intro a _
    by_cases hx : a = x <;> by_cases hxs : a ∈ xs <;>
      simp [hx, hxs, List.mem_cons]

theorem deliverOne_fst (ev : Event) (c : Conn) :
    (deliverOne ev c).1
      = if c.sendOk then { c with inbox := c.inbox ++ [ev] } else c := by
  cases h1 : c.stateConnected <;> cases h2 : c.sendOk <;>
    simp [deliverOne, h1, h2]

theorem deliverOne_snd (ev : Event) (c : Conn) :
    (deliverOne ev c).2 = !c.sendOk := by
  cases h1 : c.stateConnected <;> cases h2 : c.sendOk <;>
    simp [deliverOne, h1, h2]

theorem deliverOne_cid (ev : Event) (c : Conn) :
    ((deliverOne ev c).1).cid = c.cid := by
  rw [deliverOne_fst]
  by_cases h : c.sendOk <;> simp [h]

/-- C5: `broadcast` is a total function — every delivery failure is caught,
so it never raises to its caller; after the delivery pass exactly the
subscribers whose send failed have been removed via `disconnect`, while
every subscriber whose send succeeded remains connected with the event
appended to its inbox.  In particular, out of 5 connected subscribers of
which 2 fail delivery, exactly the 3 others remain connected afterwards
and each of the 3 received the event. -/
theorem broadcast_failure_pruning (m : ConnectionManager) (ev : Event)
    (h : (m.active_connections.map Conn.cid).Nodup) :
    (broadcastRun m ev).active_connections
      = (m.active_connections.filter (fun c => c.sendOk)).map
          (fun c => { c with inbox := c.inbox ++ [ev] })
  ∧ (broadcastRun
        { active_connections :=
            [⟨1, true, true, []⟩, ⟨2, true, false, []⟩, ⟨3, false, true, []⟩,
             ⟨4, false, false, []⟩, ⟨5, true, true, []⟩] }
        (Event.chatMessage "s0" "x" "hello" 0)).active_connections
      = [⟨1, true, true, [Event.chatMessage "s0" "x" "hello" 0]⟩,
         ⟨3, false, true, [Event.chatMessage "s0" "x" "hello" 0]⟩,
         ⟨5, true, true, [Event.chatMessage "s0" "x" "hello" 0]⟩] := by
  constructor
  · have hconns : (m.active_connections.map (deliverOne ev)).map Prod.fst
        = m.active_connections.map
            (fun c => if c.sendOk then { c with inbox := c.inbox ++ [ev] } else c) := by
      rw [List.map_map]
      exact List.map_congr_left (fun c _ => deliverOne_fst ev c)
    have hstale :
        ((m.active_connections.map (deliverOne ev)).filter (fun r => r.2)).map Prod.fst
          = m.active_connections.filter (fun c => !c.sendOk) := by
      rw [List.filter_map, List.map_map]
      have h1 : m.active_connections.filter ((fun r : Conn × Bool => r.2) ∘ deliverOne ev)
          = m.active_connections.filter (fun c => !c.sendOk) :=
        List.filter_congr (fun c _ => deliverOne_snd ev c)
      rw [h1]
      have h2 : ∀ c ∈ m.active_connections.filter (fun c => !c.sendOk),
          (Prod.fst ∘ deliverOne ev) c = id c := by
        intro c hc
        have hko : c.sendOk = false := by
          have := (List.mem_filter.mp hc).2
          simpa using this
        simp [Function.comp, deliverOne_fst, hko]
      rw [List.map_congr_left h2, List.map_id]
    have hnodup : ((m.active_connections.map (deliverOne ev)).map Prod.fst).Nodup := by
      apply List.Nodup.of_map Conn.cid
      have : (((m.active_connections.map (deliverOne ev)).map Prod.fst).map Conn.cid)
          = m.active_connections.map Conn.cid := by
        rw [List.map_map, List.map_map]
        exact List.map_congr_left (fun c _ => deliverOne_cid ev c)
      rw [this]
      exact h
    rw [hconns] at hnodup
    show ((((m.active_connections.map (deliverOne ev)).filter
              (fun r => r.2)).map Prod.fst).foldl disconnect
            { active_connections := (m.active_connections.map (deliverOne ev)).map Prod.fst
              }).active_connections = _
    rw [foldl_disconnect_active, hconns, hstale,
      foldl_erase_eq_filter _ _ hnodup, List.filter_map]
    have h3 : m.active_connections.filter
          ((fun a => decide (a ∉ m.active_connections.filter (fun c => !c.sendOk)))
            ∘ (fun c => if c.sendOk then { c with inbox := c.inbox ++ [ev] } else c))
        = m.active_connections.filter (fun c => c.sendOk) := by
      refine List.filter_congr ?_
      intro c hc
      by_cases hko : c.sendOk
      · simp only [Function.comp, if_pos hko, hko]
        rw [decide_eq_true_iff]
        intro hmem
        have := (List.mem_filter.mp hmem).2
        simp [hko] at this
      · simp only [Function.comp, if_neg hko]
        have hcin : c ∈ m.active_connections.filter (fun c => !c.sendOk) :=
          List.mem_filter.mpr ⟨hc, by simp [Bool.eq_false_iff.mpr hko]⟩
        simp [hcin, hko]
    rw [h3]
    refine List.map_congr_left ?_
    intro c hc
    have hko : c.sendOk = true := (List.mem_filter.mp hc).2
    simp [hko]
  · decide

/-- Witness for C5 at a concrete manager of five subscribers with two
failing deliveries. -/
theorem broadcast_failure_pruning_witness :
    (broadcastRun
        { active_connections :=
            [⟨1, true, true, []⟩, ⟨2, true, false, []⟩, ⟨3, false, true, []⟩,
             ⟨4, false, false, []⟩, ⟨5, true, true, []⟩] }
        (Event.chatMessage "s1" "y" "m1" 2)).active_connections
      = (([⟨1, true, true, []⟩, ⟨2, true, false, []⟩, ⟨3, false, true, []⟩,
           ⟨4, false, false, []⟩, ⟨5, true, true, []⟩] : List Conn).filter
            (fun c => c.sendOk)).map
          (fun c => { c with inbox := c.inbox ++ [Event.chatMessage "s1" "y" "m1" 2] }) :=
  (broadcast_failure_pruning
    { active_connections :=
        [⟨1, true, true, []⟩, ⟨2, true, false, []⟩, ⟨3, false, true, []⟩,
         ⟨4, false, false, []⟩, ⟨5, true, true, []⟩] }
    (Event.chatMessage "s1" "y" "m1" 2) (by decide)).1

/-- C10: with a valid status filter ("active" or "inactive"), the
GET /agents handler broadcasts a chat_message naming the first matching
agent to the hub's subscribers before returning the filtered list, and
when no stored agent matches it raises IndexError (from `agents[0]`)
instead of returning the empty list. -/
theorem agents_endpoint_filter_chat (l : List Agent) (q : String) (now : Nat)
    (m : ConnectionManager) (hq : q = "active" ∨ q = "inactive") :
    (l.filter (fun x => decide (x.status = statusOfQuery q)) = [] →
        list_agents_endpoint (FileState.good l) (some q) now m = .error ())
  ∧ (∀ a0 rest,
        l.filter (fun x => decide (x.status = statusOfQuery q)) = a0 :: rest →
        list_agents_endpoint (FileState.good l) (some q) now m
          = .ok (a0 :: rest,
                 broadcastRun m
                   (Event.chatMessage "a12345" a0.id (greeting a0.id) now))) := by
  constructor
  · intro hnil
    simp only [list_agents_endpoint, list_agents, readSync, if_pos hq, hnil]
  · intro a0 rest hcons
    simp only [list_agents_endpoint, list_agents, readSync, if_pos hq, hcons]

/-- Witness for C10: one stored ACTIVE agent, filter "active": the handler
returns the singleton list and broadcasts the chat_message naming it. -/
theorem agents_endpoint_filter_chat_witness :
    list_agents_endpoint (FileState.good [sampleActive]) (some "active") 3
        { active_connections := [] }
      = .ok ([sampleActive],
             broadcastRun { active_connections := [] }
               (Event.chatMessage "a12345" sampleActive.id
                 (greeting sampleActive.id) 3)) :=
  (agents_endpoint_filter_chat [sampleActive] "active" 3
      { active_connections := [] } (Or.inl rfl)).2 sampleActive []
    (by decide)

end A2A
